import Mathlib

/-!
Verification of the matrix-expression core of the `trinity` repository.

The Rust source is shallowly embedded: `f64` values are modelled as exact
rationals (`ℚ`).  Every arithmetic step exercised by the theorems below is
exactly representable, so no rounding behaviour is lost where it matters;
the one place where floating-point rounding is semantically load-bearing —
the tokeniser parses numeric literals with nom's `float`, i.e. at `f32`
precision — is modelled explicitly by `roundF32`, correct rounding of a
rational to the nearest binary32 value.
-/

set_option maxRecDepth 16384

deriving instance DecidableEq for Except

namespace Trinity

/-- The epsilon value used for relative comparisons in `ast.rs` (`1e-9`). -/
def EPSILON : ℚ := 1 / 1000000000

/-- `<f64 as approx::RelativeEq>::default_max_relative()`, which is
`f64::EPSILON = 2^-52`. -/
def defaultMaxRelative : ℚ := 1 / 2 ^ 52

/-- `f64::round` from Rust: round half away from zero, as an integer. -/
def rustRound (q : ℚ) : ℤ := if 0 ≤ q then ⌊q + 1 / 2⌋ else -⌊-q + 1 / 2⌋

/-- The `approx` crate's `RelativeEq::relative_eq` for finite `f64` values:
equal, or absolutely within `epsilon`, or relatively within `maxRelative`
of the larger magnitude.  (The infinity checks of the crate cannot fire on
rationals.) -/
def relativeEq (a b epsilon maxRelative : ℚ) : Bool :=
  a == b || decide (|a - b| ≤ epsilon) || decide (|a - b| ≤ max |a| |b| * maxRelative)

/-- Rust's saturating `as u16` cast applied to a nonnegative finite `f64`:
truncate toward zero and clamp to `[0, 65535]`. -/
def f64AsU16 (q : ℚ) : ℕ := if q ≤ 0 then 0 else min ⌊q⌋.toNat 65535

/-- Round a rational to the nearest integer, ties to even — the rounding
used when converting a decimal literal to a binary floating-point value. -/
def roundHalfEven (q : ℚ) : ℤ :=
  let f := ⌊q⌋
  let r := q - (f : ℚ)
  if r < 1 / 2 then f
  else if 1 / 2 < r then f + 1
  else if f % 2 = 0 then f else f + 1

/-- The binade of a positive rational: the largest `k : ℤ` with `2^k ≤ q`.
Computed from the bit lengths of numerator and denominator. -/
def binade (q : ℚ) : ℤ :=
  let k : ℤ := (Nat.log2 q.num.toNat : ℤ) - (Nat.log2 q.den : ℤ)
  if (2 : ℚ) ^ k ≤ q then k else k - 1

/-- Correct rounding of a nonnegative rational to the nearest `f32`
(binary32: 24-bit significand, subnormals below `2^-126`).  Overflow to
infinity (at `2^128`) is not modelled; every literal appearing in this
development is far below that.  This models the value produced by nom's
`float` parser in `tokenise_number`, which parses an `f32` that the Rust
code then widens with `as f64`. -/
def roundF32Pos (q : ℚ) : ℚ :=
  let e : ℤ := max (binade q - 23) (-149)
  let m : ℤ := roundHalfEven (q * (2 : ℚ) ^ (-e))
  (m : ℚ) * (2 : ℚ) ^ e

/-- `roundF32Pos` extended to all rationals by sign symmetry. -/
def roundF32 (q : ℚ) : ℚ :=
  if q = 0 then 0 else if q < 0 then -(roundF32Pos (-q)) else roundF32Pos q

/-- The `PowerZero` trait of `src/math/square_multiply.rs`: the value of
`x^0` for the type. -/
class PowerZero (T : Type) where
  POWER_ZERO : T

instance : PowerZero ℚ := ⟨1⟩

/-- `integer_power` from `src/math/square_multiply.rs`: exponentiation by
squaring, scanning the bits of `power` from the bit below the most
significant one down to bit 0.  `power` is a `u16` in Rust; the algorithm
is identical for every natural number. -/
def integer_power {T : Type} [Mul T] [PowerZero T] (base : T) (power : ℕ) : T :=
  if power = 0 then PowerZero.POWER_ZERO
  else
    (List.range (Nat.log2 power)).reverse.foldl
      (fun num bit_idx =>
        let squared := num * num
        if (1 <<< bit_idx) &&& power ≠ 0 then squared * base else squared)
      base

/-- Column vector of two `f64` components (glam's `DVec2`). -/
structure DVec2 where
  x : ℚ
  y : ℚ
deriving DecidableEq

/-- glam's `DMat2`: two column vectors. -/
structure DMat2 where
  x_axis : DVec2
  y_axis : DVec2
deriving DecidableEq

def DMat2.IDENTITY : DMat2 := ⟨⟨1, 0⟩, ⟨0, 1⟩⟩

/-- Matrix-vector product, as in glam. -/
def DMat2.mulVec (m : DMat2) (v : DVec2) : DVec2 :=
  ⟨m.x_axis.x * v.x + m.y_axis.x * v.y, m.x_axis.y * v.x + m.y_axis.y * v.y⟩

/-- Matrix product: each column of the result is `a` applied to the
corresponding column of `b`. -/
def DMat2.mul (a b : DMat2) : DMat2 := ⟨a.mulVec b.x_axis, a.mulVec b.y_axis⟩

instance : Mul DMat2 := ⟨DMat2.mul⟩

instance : PowerZero DMat2 := ⟨DMat2.IDENTITY⟩

def DMat2.add (a b : DMat2) : DMat2 :=
  ⟨⟨a.x_axis.x + b.x_axis.x, a.x_axis.y + b.x_axis.y⟩,
   ⟨a.y_axis.x + b.y_axis.x, a.y_axis.y + b.y_axis.y⟩⟩

def DMat2.smul (s : ℚ) (m : DMat2) : DMat2 :=
  ⟨⟨s * m.x_axis.x, s * m.x_axis.y⟩, ⟨s * m.y_axis.x, s * m.y_axis.y⟩⟩

def DMat2.neg (m : DMat2) : DMat2 := DMat2.smul (-1) m

def DMat2.transpose (m : DMat2) : DMat2 :=
  ⟨⟨m.x_axis.x, m.y_axis.x⟩, ⟨m.x_axis.y, m.y_axis.y⟩⟩

def DMat2.determinant (m : DMat2) : ℚ :=
  m.x_axis.x * m.y_axis.y - m.x_axis.y * m.y_axis.x

/-- glam's `DMat2::inverse` (exact on rationals; glam divides by the
determinant, which the caller in `ast.rs` has checked to be nonzero). -/
def DMat2.inverse (m : DMat2) : DMat2 :=
  let inv_det := m.determinant⁻¹
  ⟨⟨m.y_axis.y * inv_det, -m.x_axis.y * inv_det⟩,
   ⟨-m.y_axis.x * inv_det, m.x_axis.x * inv_det⟩⟩

/-- Column vector of three `f64` components (glam's `DVec3`). -/
structure DVec3 where
  x : ℚ
  y : ℚ
  z : ℚ
deriving DecidableEq

/-- glam's `DMat3`: three column vectors. -/
structure DMat3 where
  x_axis : DVec3
  y_axis : DVec3
  z_axis : DVec3
deriving DecidableEq

def DMat3.IDENTITY : DMat3 := ⟨⟨1, 0, 0⟩, ⟨0, 1, 0⟩, ⟨0, 0, 1⟩⟩

def DVec3.dot (a b : DVec3) : ℚ := a.x * b.x + a.y * b.y + a.z * b.z

def DVec3.cross (a b : DVec3) : DVec3 :=
  ⟨a.y * b.z - a.z * b.y, a.z * b.x - a.x * b.z, a.x * b.y - a.y * b.x⟩

def DVec3.smul (s : ℚ) (v : DVec3) : DVec3 := ⟨s * v.x, s * v.y, s * v.z⟩

def DMat3.mulVec (m : DMat3) (v : DVec3) : DVec3 :=
  ⟨m.x_axis.x * v.x + m.y_axis.x * v.y + m.z_axis.x * v.z,
   m.x_axis.y * v.x + m.y_axis.y * v.y + m.z_axis.y * v.z,
   m.x_axis.z * v.x + m.y_axis.z * v.y + m.z_axis.z * v.z⟩

def DMat3.mul (a b : DMat3) : DMat3 :=
  ⟨a.mulVec b.x_axis, a.mulVec b.y_axis, a.mulVec b.z_axis⟩

instance : Mul DMat3 := ⟨DMat3.mul⟩

instance : PowerZero DMat3 := ⟨DMat3.IDENTITY⟩

def DMat3.add (a b : DMat3) : DMat3 :=
  ⟨⟨a.x_axis.x + b.x_axis.x, a.x_axis.y + b.x_axis.y, a.x_axis.z + b.x_axis.z⟩,
   ⟨a.y_axis.x + b.y_axis.x, a.y_axis.y + b.y_axis.y, a.y_axis.z + b.y_axis.z⟩,
   ⟨a.z_axis.x + b.z_axis.x, a.z_axis.y + b.z_axis.y, a.z_axis.z + b.z_axis.z⟩⟩

def DMat3.smul (s : ℚ) (m : DMat3) : DMat3 :=
  ⟨DVec3.smul s m.x_axis, DVec3.smul s m.y_axis, DVec3.smul s m.z_axis⟩

def DMat3.neg (m : DMat3) : DMat3 := DMat3.smul (-1) m

def DMat3.transpose (m : DMat3) : DMat3 :=
  ⟨⟨m.x_axis.x, m.y_axis.x, m.z_axis.x⟩,
   ⟨m.x_axis.y, m.y_axis.y, m.z_axis.y⟩,
   ⟨m.x_axis.z, m.y_axis.z, m.z_axis.z⟩⟩

/-- glam's `DMat3::determinant`: `z_axis ⬝ (x_axis × y_axis)`. -/
def DMat3.determinant (m : DMat3) : ℚ := m.z_axis.dot (m.x_axis.cross m.y_axis)

/-- glam's `DMat3::inverse` via cross products and the determinant. -/
def DMat3.inverse (m : DMat3) : DMat3 :=
  let tmp0 := m.y_axis.cross m.z_axis
  let tmp1 := m.z_axis.cross m.x_axis
  let tmp2 := m.x_axis.cross m.y_axis
  let det := m.z_axis.dot tmp2
  let inv_det := det⁻¹
  (DMat3.mk (DVec3.smul inv_det tmp0) (DVec3.smul inv_det tmp1)
    (DVec3.smul inv_det tmp2)).transpose

/-- `Matrix2dOr3d` from `src/matrix/mod.rs`. -/
inductive Matrix2dOr3d where
  | TwoD (m : DMat2)
  | ThreeD (m : DMat3)
deriving DecidableEq

/-- `Matrix2dOr3d::try_mul`; the source returns
`Result<_, CannotMultiplyDifferentDimensions>` whose error type has a
single value, modelled as `Option`. -/
def Matrix2dOr3d.try_mul : Matrix2dOr3d → Matrix2dOr3d → Option Matrix2dOr3d
  | .TwoD a, .TwoD b => some (.TwoD (a * b))
  | .ThreeD a, .ThreeD b => some (.ThreeD (a * b))
  | _, _ => none

/-- `Matrix2dOr3d::try_add`, modelled like `try_mul`. -/
def Matrix2dOr3d.try_add : Matrix2dOr3d → Matrix2dOr3d → Option Matrix2dOr3d
  | .TwoD a, .TwoD b => some (.TwoD (DMat2.add a b))
  | .ThreeD a, .ThreeD b => some (.ThreeD (DMat3.add a b))
  | _, _ => none

/-- The `Mul<f64> for Matrix2dOr3d` impl (scalar product, either side). -/
def Matrix2dOr3d.smul (s : ℚ) : Matrix2dOr3d → Matrix2dOr3d
  | .TwoD m => .TwoD (DMat2.smul s m)
  | .ThreeD m => .ThreeD (DMat3.smul s m)

/-- Dimension-generic transpose. -/
def Matrix2dOr3d.transpose : Matrix2dOr3d → Matrix2dOr3d
  | .TwoD m => .TwoD m.transpose
  | .ThreeD m => .ThreeD m.transpose

/-- Dimension-generic determinant. -/
def Matrix2dOr3d.determinant : Matrix2dOr3d → ℚ
  | .TwoD m => m.determinant
  | .ThreeD m => m.determinant

/-- Dimension-generic inverse. -/
def Matrix2dOr3d.inverse : Matrix2dOr3d → Matrix2dOr3d
  | .TwoD m => .TwoD m.inverse
  | .ThreeD m => .ThreeD m.inverse

/-- Dimension-generic `integer_power`. -/
def Matrix2dOr3d.integer_pow : Matrix2dOr3d → ℕ → Matrix2dOr3d
  | .TwoD m, k => .TwoD (integer_power m k)
  | .ThreeD m, k => .ThreeD (integer_power m k)

/-- ASCII test for the regex class `[A-Z]`. -/
def isUpperAZ (c : Char) : Bool := decide ('A' ≤ c ∧ c ≤ 'Z')

/-- ASCII test for the regex class `[A-Za-z0-9_]`. -/
def isNameTail (c : Char) : Bool :=
  decide ('A' ≤ c ∧ c ≤ 'Z') || decide ('a' ≤ c ∧ c ≤ 'z') ||
  decide ('0' ≤ c ∧ c ≤ '9') || c == '_'

/-- `MatrixName::is_valid` from `src/matrix/mod.rs`: the whole string must
match `^[A-Z][A-Za-z0-9_]*$`.  Matrix names are modelled as plain strings;
the Rust `MatrixName` wrapper adds no data beyond the string. -/
def MatrixName.is_valid (name : String) : Bool :=
  match name.data with
  | [] => false
  | c :: rest => isUpperAZ c && rest.all isNameTail

/-- `MatrixMapError` from `src/matrix/map.rs`. -/
inductive MatrixMapError where
  | InvalidName (name : String)
  | NameNotDefined (name : String)
deriving DecidableEq

/-- `std::collections::HashMap::insert` restricted to what the map code
uses: replace the binding for an existing key, otherwise add a binding. -/
def hashInsert {T : Type} : List (String × T) → String → T → List (String × T)
  | [], key, value => [(key, value)]
  | (k, v) :: rest, key, value =>
    if k = key then (key, value) :: rest else (k, v) :: hashInsert rest key value

/-- `HashMap::get` for the association-list model. -/
def hashLookup {T : Type} : List (String × T) → String → Option T
  | [], _ => none
  | (k, v) :: rest, key => if k = key then some v else hashLookup rest key

/-- `MatrixMapHashMap` from `src/matrix/map.rs`, with the `HashMap`
modelled as an association list (the code only inserts and looks up, so
bucket order is unobservable). -/
structure MatrixMapHashMap (T : Type) where
  map : List (String × T)
deriving DecidableEq

/-- `MatrixMap::new`. -/
def MatrixMapHashMap.new {T : Type} : MatrixMapHashMap T := ⟨[]⟩

/-- `MatrixMapHashMap::set`: validate the name, then insert (overwriting).
Rust mutates `self` and returns `Result<(), _>`; modelled as the pair of
the returned result and the map after the call (unchanged on error). -/
def MatrixMapHashMap.set {T : Type} (self : MatrixMapHashMap T) (name : String)
    (value : T) : Except MatrixMapError Unit × MatrixMapHashMap T :=
  if MatrixName.is_valid name then (.ok (), ⟨hashInsert self.map name value⟩)
  else (.error (.InvalidName name), self)

/-- `MatrixMapHashMap::get`: validate the queried name, then look it up. -/
def MatrixMapHashMap.get {T : Type} (self : MatrixMapHashMap T) (name : String) :
    Except MatrixMapError T :=
  if MatrixName.is_valid name then
    match hashLookup self.map name with
    | some matrix => .ok matrix
    | none => .error (.NameNotDefined name)
  else .error (.InvalidName name)

/-- A map reachable from `new()` by a sequence of `set` calls (failed sets
leave the map unchanged, exactly as in Rust). -/
def applySets {T : Type} (ops : List (String × T)) : MatrixMapHashMap T :=
  ops.foldl (fun m op => (m.set op.1 op.2).2) MatrixMapHashMap.new

/-- `EvaluationError` from `src/matrix/expression/ast.rs`. -/
inductive EvaluationError where
  | CannotMultiplyDifferentDimensions
  | CannotAddDifferentDimensions
  | CannotAddNumberAndMatrix
  | CannotRaiseMatrixToNonInteger
  | CannotRaiseToMatrix
  | CannotDivideByMatrix
  | CannotInvertSingularMatrix
  | CannotTransposeNumber
  | MatrixMapError (e : MatrixMapError)
deriving DecidableEq

/-- `NumberOrMatrix` from `src/matrix/expression/ast.rs`. -/
inductive NumberOrMatrix where
  | Number (n : ℚ)
  | Matrix (m : Matrix2dOr3d)
deriving DecidableEq

/-- `NumberOrMatrix::try_mul`. -/
def NumberOrMatrix.try_mul : NumberOrMatrix → NumberOrMatrix →
    Except EvaluationError NumberOrMatrix
  | .Number a, .Number b => .ok (.Number (a * b))
  | .Number a, .Matrix b => .ok (.Matrix (Matrix2dOr3d.smul a b))
  | .Matrix a, .Number b => .ok (.Matrix (Matrix2dOr3d.smul b a))
  | .Matrix a, .Matrix b =>
    match Matrix2dOr3d.try_mul a b with
    | some m => .ok (.Matrix m)
    | none => .error .CannotMultiplyDifferentDimensions

/-- `NumberOrMatrix::try_div`.  Rust `f64` division by zero yields an
infinity; on rationals `b⁻¹` is `0` when `b = 0`.  No claim divides by a
zero number, so the divergence is unobservable here. -/
def NumberOrMatrix.try_div : NumberOrMatrix → NumberOrMatrix →
    Except EvaluationError NumberOrMatrix
  | .Number a, .Number b => .ok (.Number (a / b))
  | .Matrix a, .Number b => .ok (.Matrix (Matrix2dOr3d.smul b⁻¹ a))
  | _, .Matrix _ => .error .CannotDivideByMatrix

/-- `NumberOrMatrix::try_add`. -/
def NumberOrMatrix.try_add : NumberOrMatrix → NumberOrMatrix →
    Except EvaluationError NumberOrMatrix
  | .Number a, .Number b => .ok (.Number (a + b))
  | .Matrix a, .Matrix b =>
    match Matrix2dOr3d.try_add a b with
    | some m => .ok (.Matrix m)
    | none => .error .CannotAddDifferentDimensions
  | _, _ => .error .CannotAddNumberAndMatrix

/-- `NumberOrMatrix::negate`. -/
def NumberOrMatrix.negate : NumberOrMatrix → NumberOrMatrix
  | .Number n => .Number (-n)
  | .Matrix (.TwoD m) => .Matrix (.TwoD (DMat2.neg m))
  | .Matrix (.ThreeD m) => .Matrix (.ThreeD (DMat3.neg m))

/-- Stand-in for Rust's `f64::powf` in the number-to-number branch of
`try_power`.  `powf` on arbitrary reals is transcendental and cannot be
represented on `ℚ`; this stand-in is exact for integer exponents and
returns `0` otherwise.  No claim in this development evaluates a
number-to-number exponent, so nothing below depends on this definition. -/
def powf (b p : ℚ) : ℚ := if p.den = 1 then b ^ p.num else 0

/-- `NumberOrMatrix::try_power`.  The two matrix branches are duplicated
in the source (one for `DMat2`, one for `DMat3`, the second with the
literal `0.000000001` in place of the `EPSILON` constant — the same
value); the duplication is kept here. -/
def NumberOrMatrix.try_power : NumberOrMatrix → NumberOrMatrix →
    Except EvaluationError NumberOrMatrix
  | .Number base, .Number power => .ok (.Number (powf base power))
  | .Matrix (.TwoD base), .Number power =>
    if relativeEq (rustRound power : ℚ) power EPSILON defaultMaxRelative then
      let needs_invert := decide ((rustRound power : ℚ) < 0)
      let pow16 := f64AsU16 |(rustRound power : ℚ)|
      let result := integer_power base pow16
      if needs_invert then
        if !relativeEq result.determinant 0 EPSILON defaultMaxRelative then
          .ok (.Matrix (.TwoD result.inverse))
        else .error .CannotInvertSingularMatrix
      else .ok (.Matrix (.TwoD result))
    else .error .CannotRaiseMatrixToNonInteger
  | .Matrix (.ThreeD base), .Number power =>
    if relativeEq (rustRound power : ℚ) power (1 / 1000000000) defaultMaxRelative then
      let needs_invert := decide ((rustRound power : ℚ) < 0)
      let pow16 := f64AsU16 |(rustRound power : ℚ)|
      let result := integer_power base pow16
      if needs_invert then
        if !relativeEq result.determinant 0 EPSILON defaultMaxRelative then
          .ok (.Matrix (.ThreeD result.inverse))
        else .error .CannotInvertSingularMatrix
      else .ok (.Matrix (.ThreeD result))
    else .error .CannotRaiseMatrixToNonInteger
  | _, .Matrix _ => .error .CannotRaiseToMatrix

/-- `NumberOrMatrix::try_transpose`. -/
def NumberOrMatrix.try_transpose : NumberOrMatrix →
    Except EvaluationError NumberOrMatrix
  | .Number _ => .error .CannotTransposeNumber
  | .Matrix (.TwoD m) => .ok (.Matrix (.TwoD m.transpose))
  | .Matrix (.ThreeD m) => .ok (.Matrix (.ThreeD m.transpose))

/-- Stand-ins for `cos`/`sin` inside `DMat2::from_angle`, used only by the
evaluation of `RotationMatrix` nodes.  The real functions are
transcendental; no claim in this development evaluates a rotation matrix,
so the numeric values below are never examined by any theorem. -/
def qcos (_ : ℚ) : ℚ := 0

/-- See `qcos`. -/
def qsin (_ : ℚ) : ℚ := 0

/-- glam's `DMat2::from_angle` (columns `(cos, sin)` and `(-sin, cos)`),
with the trig stand-ins. -/
def DMat2.from_angle (radians : ℚ) : DMat2 :=
  ⟨⟨qcos radians, qsin radians⟩, ⟨-qsin radians, qcos radians⟩⟩

/-- The exact value of the `f64` constant `std::f64::consts::PI`. -/
def PI_F64 : ℚ := 884279719003555 / 2 ^ 48

/-- `f64::to_radians`: multiply by π/180 (the rounding of the intermediate
`f64` operations is not modelled; only rotation evaluation uses this, and
no claim evaluates a rotation). -/
def toRadians (degrees : ℚ) : ℚ := degrees * (PI_F64 / 180)

/-- `AstNode` from `src/matrix/expression/ast.rs`.  The `MatrixName`
payload is its underlying string. -/
inductive AstNode where
  | Multiply (left right : AstNode)
  | Divide (left right : AstNode)
  | Add (left right : AstNode)
  | Negate (term : AstNode)
  | Exponent (base power : AstNode)
  | Number (n : ℚ)
  | NamedMatrix (name : String)
  | RotationMatrix (degrees : ℚ)
  | Anonymous2dMatrix (m : DMat2)
  | Anonymous3dMatrix (m : DMat3)
deriving DecidableEq

/-- `AstNode::evaluate`.  The Rust method takes `&impl MatrixMap`; the
environment is modelled as the map's `get` function, from a name to the
stored matrix or a `MatrixMapError`. -/
def AstNode.evaluate (node : AstNode)
    (map : String → Except MatrixMapError Matrix2dOr3d) :
    Except EvaluationError NumberOrMatrix :=
  match node with
  | .Multiply left right =>
    match left.evaluate map with
    | .error e => .error e
    | .ok lv =>
      match right.evaluate map with
      | .error e => .error e
      | .ok rv => NumberOrMatrix.try_mul lv rv
  | .Divide left right =>
    match left.evaluate map with
    | .error e => .error e
    | .ok lv =>
      match right.evaluate map with
      | .error e => .error e
      | .ok rv => NumberOrMatrix.try_div lv rv
  | .Add left right =>
    match left.evaluate map with
    | .error e => .error e
    | .ok lv =>
      match right.evaluate map with
      | .error e => .error e
      | .ok rv => NumberOrMatrix.try_add lv rv
  | .Negate term =>
    match term.evaluate map with
    | .error e => .error e
    | .ok v => .ok (NumberOrMatrix.negate v)
  | .Exponent base power =>
    if power = .NamedMatrix "T" then
      match base.evaluate map with
      | .error e => .error e
      | .ok v => NumberOrMatrix.try_transpose v
    else
      match base.evaluate map with
      | .error e => .error e
      | .ok bv =>
        match power.evaluate map with
        | .error e => .error e
        | .ok pv => NumberOrMatrix.try_power bv pv
  | .Number n => .ok (.Number n)
  | .NamedMatrix name =>
    match map name with
    | .ok m => .ok (.Matrix m)
    | .error e => .error (.MatrixMapError e)
  | .RotationMatrix degrees =>
    .ok (.Matrix (.TwoD (DMat2.from_angle (toRadians degrees))))
  | .Anonymous2dMatrix m => .ok (.Matrix (.TwoD m))
  | .Anonymous3dMatrix m => .ok (.Matrix (.ThreeD m))

/-- Decimal representation of an integer, as Rust's `Display` prints it. -/
def intRepr (n : ℤ) : String := if n < 0 then "-" ++ Nat.repr n.natAbs else Nat.repr n.toNat

/-- Digits of `n` with a decimal point `k` places from the right, zero
padded on the left so there is at least one digit before the point. -/
def decimalOfScaled (n k : ℕ) : String :=
  let ds := (Nat.repr n).data
  let ds := List.replicate (k + 1 - ds.length) '0' ++ ds
  ⟨ds.take (ds.length - k)⟩ ++ "." ++ ⟨ds.drop (ds.length - k)⟩

/-- Rust's `Display` for `f64` as used by `to_expression_string`.  Whole
numbers print with no fractional part (`2.0` prints as `"2"`), which is
the only case any claim exercises.  Rust prints the shortest decimal that
round-trips; for a non-integer dyadic rational this model prints the exact
(finite) decimal expansion instead, which can be longer — a divergence no
theorem below depends on.  A non-dyadic denominator cannot arise from an
`f64`; for totality it falls back to a fraction form. -/
def f64Display (q : ℚ) : String :=
  if q.den = 1 then intRepr q.num
  else
    let k := Nat.log2 q.den
    if q.den = 2 ^ k then
      (if q.num < 0 then "-" else "") ++ decimalOfScaled (q.num.natAbs * 5 ^ k) k
    else intRepr q.num ++ "/" ++ Nat.repr q.den

/-- `AstNode::internal_to_expression_string`: render with parentheses
around every non-top-level compound node; the power of an exponent is
rendered inside braces and treated as top-level. -/
def AstNode.internal_to_expression_string (node : AstNode) (top_level : Bool) : String :=
  match node with
  | .Multiply left right =>
    let l := left.internal_to_expression_string false
    let r := right.internal_to_expression_string false
    let s := l ++ " * " ++ r
    if !top_level then "(" ++ s ++ ")" else s
  | .Divide left right =>
    let l := left.internal_to_expression_string false
    let r := right.internal_to_expression_string false
    let s := l ++ " / " ++ r
    if !top_level then "(" ++ s ++ ")" else s
  | .Add left right =>
    let l := left.internal_to_expression_string false
    let r := right.internal_to_expression_string false
    let s := l ++ " + " ++ r
    if !top_level then "(" ++ s ++ ")" else s
  | .Negate term =>
    let t := term.internal_to_expression_string false
    if !top_level then "(-" ++ t ++ ")" else "-" ++ t
  | .Exponent base power =>
    let b := base.internal_to_expression_string false
    let p := power.internal_to_expression_string true
    let s := b ++ " ^ \x7b" ++ p ++ "\x7d"
    if !top_level then "(" ++ s ++ ")" else s
  | .Number n => f64Display n
  | .NamedMatrix name => name
  | .RotationMatrix degrees => "rot(" ++ f64Display degrees ++ ")"
  | .Anonymous2dMatrix m =>
    "[" ++ f64Display m.x_axis.x ++ " " ++ f64Display m.y_axis.x ++ "; " ++
    f64Display m.x_axis.y ++ " " ++ f64Display m.y_axis.y ++ "]"
  | .Anonymous3dMatrix m =>
    "[" ++ f64Display m.x_axis.x ++ " " ++ f64Display m.y_axis.x ++ " " ++
    f64Display m.z_axis.x ++ "; " ++
    f64Display m.x_axis.y ++ " " ++ f64Display m.y_axis.y ++ " " ++
    f64Display m.z_axis.y ++ "; " ++
    f64Display m.x_axis.z ++ " " ++ f64Display m.y_axis.z ++ " " ++
    f64Display m.z_axis.z ++ "]"

/-- `AstNode::to_expression_string`. -/
def AstNode.to_expression_string (node : AstNode) : String :=
  node.internal_to_expression_string true

/-- `Token` from `src/matrix/expression/tokenise.rs`. -/
inductive Token where
  | NamedMatrix (name : String)
  | Number (num : ℚ)
  | Rot
  | Plus
  | Minus
  | Star
  | Slash
  | Caret
  | Semicolon
  | OpenParen
  | CloseParen
  | OpenSquareBracket
  | CloseSquareBracket
  | OpenBrace
  | CloseBrace
deriving DecidableEq

/-- The character `x7b` (opening curly brace). -/
def openBraceChar : Char := Char.ofNat 123

/-- The character `x7d` (closing curly brace). -/
def closeBraceChar : Char := Char.ofNat 125

/-- ASCII digit test. -/
def isDigitChar (c : Char) : Bool := decide ('0' ≤ c ∧ c ≤ '9')

/-- The whitespace recognised by nom's `multispace1`. -/
def isSpaceChar (c : Char) : Bool :=
  c == ' ' || c == '\t' || c == '\n' || c == '\r'

/-- `tokenise_named_matrix`: longest match of `^[A-Z][A-Za-z0-9_]*`. -/
def tokenise_named_matrix (input : List Char) : Option (List Char × Token) :=
  match input with
  | [] => none
  | c :: rest =>
    if isUpperAZ c then
      let (tail, remaining) := rest.span isNameTail
      some (remaining, .NamedMatrix ⟨c :: tail⟩)
    else none

/-- `tokenise_rot`: the literal tag `rot`. -/
def tokenise_rot (input : List Char) : Option (List Char × Token) :=
  match input with
  | 'r' :: 'o' :: 't' :: rest => some (rest, .Rot)
  | _ => none

/-- `tokenise_punctuation`: single-character alternatives, in source order. -/
def tokenise_punctuation (input : List Char) : Option (List Char × Token) :=
  match input with
  | [] => none
  | c :: rest =>
    if c = '+' then some (rest, .Plus)
    else if c = '-' then some (rest, .Minus)
    else if c = '*' then some (rest, .Star)
    else if c = '/' then some (rest, .Slash)
    else if c = '^' then some (rest, .Caret)
    else if c = ';' then some (rest, .Semicolon)
    else if c = '(' then some (rest, .OpenParen)
    else if c = ')' then some (rest, .CloseParen)
    else if c = '[' then some (rest, .OpenSquareBracket)
    else if c = ']' then some (rest, .CloseSquareBracket)
    else if c = openBraceChar then some (rest, .OpenBrace)
    else if c = closeBraceChar then some (rest, .CloseBrace)
    else none

/-- Numeric value of a digit run. -/
def digitsVal (ds : List Char) : ℕ :=
  ds.foldl (fun acc c => 10 * acc + (c.toNat - '0'.toNat)) 0

/-- The optional exponent suffix of nom's float grammar:
`(e | E) (+ | -)? digit+`.  If the suffix is malformed it is not consumed
at all (nom backtracks the optional branch). -/
def tokenise_number_exp (input : List Char) : ℤ × List Char :=
  match input with
  | c :: rest =>
    if c = 'e' ∨ c = 'E' then
      let (sgn, rest2) : ℤ × List Char :=
        match rest with
        | '+' :: t => (1, t)
        | '-' :: t => (-1, t)
        | _ => (1, rest)
      let (ds, rest3) := rest2.span isDigitChar
      if ds.isEmpty then (0, input) else (sgn * (digitsVal ds : ℤ), rest3)
    else (0, input)
  | [] => (0, input)

/-- `tokenise_number`: nom's `float` recognises
`digit+ (. digit*)? exp?` or `. digit+ exp?` (a leading sign never
reaches this parser because `tokenise_punctuation` is tried first), and
parses the decimal at **`f32` precision** — the Rust code maps
`float` and widens the result with `as f64`.  The `inf`/`nan` forms nom
also accepts are not modelled; no input in this development contains
them. -/
def tokenise_number (input : List Char) : Option (List Char × Token) :=
  let (ip, rest) := input.span isDigitChar
  if !ip.isEmpty then
    let (fp, rest2) :=
      match rest with
      | '.' :: r => let (ds, r2) := r.span isDigitChar; (ds, r2)
      | _ => ([], rest)
    let (ex, rest3) := tokenise_number_exp rest2
    let mantissa : ℚ := (digitsVal ip : ℚ) + (digitsVal fp : ℚ) / 10 ^ fp.length
    some (rest3, .Number (roundF32 (mantissa * (10 : ℚ) ^ ex)))
  else
    match input with
    | '.' :: r =>
      let (ds, r2) := r.span isDigitChar
      if ds.isEmpty then none
      else
        let (ex, rest3) := tokenise_number_exp r2
        let mantissa : ℚ := (digitsVal ds : ℚ) / 10 ^ ds.length
        some (rest3, .Number (roundF32 (mantissa * (10 : ℚ) ^ ex)))
    | _ => none

/-- One iteration of the `many1(alt(...))` loop in `tokenise_expression`:
named matrix, then `rot`, then punctuation, then number, then whitespace
(which yields no token). -/
def tokenise_step (input : List Char) : Option (List Char × Option Token) :=
  match tokenise_named_matrix input with
  | some (rest, t) => some (rest, some t)
  | none =>
  match tokenise_rot input with
  | some (rest, t) => some (rest, some t)
  | none =>
  match tokenise_punctuation input with
  | some (rest, t) => some (rest, some t)
  | none =>
  match tokenise_number input with
  | some (rest, t) => some (rest, some t)
  | none =>
    let (ws, rest) := input.span isSpaceChar
    if ws.isEmpty then none else some (rest, none)

/-- The driver of the tokenisation loop.  Every successful step consumes
at least one character, so `input.length` steps always suffice; the fuel
only bounds the recursion. -/
def tokeniseGo : ℕ → List Char → List Token → List Char × List Token
  | 0, input, acc => (input, acc.reverse)
  | fuel + 1, input, acc =>
    match tokenise_step input with
    | some (rest, some t) => tokeniseGo fuel rest (t :: acc)
    | some (rest, none) => tokeniseGo fuel rest acc
    | none => (input, acc.reverse)

/-- `TokeniseError` from `src/matrix/expression/tokenise.rs`.  The nom
error payload (input window and `ErrorKind`) is never inspected by the
program, so `NomError` is modelled without it. -/
inductive TokeniseError where
  | NomError
  | UnconsumedInput (rest : List Char)
deriving DecidableEq

/-- `tokenise_expression`: `many1` of the alternatives, then fail with
`UnconsumedInput` if characters remain. -/
def tokenise_expression (expression : String) : Except TokeniseError (List Token) :=
  let input := expression.data
  match tokenise_step input with
  | none => .error .NomError
  | some _ =>
    let (rest, tokens) := tokeniseGo (input.length + 1) input []
    if rest.isEmpty then .ok tokens else .error (.UnconsumedInput rest)

/-- A nom parser result over the token list: the remaining tokens and the
parsed node on success.  All failures in `nom_impl.rs` are recoverable
`nom::Err::Error` values whose payloads are never inspected, so failure is
modelled as `none`. -/
abbrev PResult := Option (List Token × AstNode)

/-- `consume_basic_token`: take one token and require it to equal the
expected one. -/
def consume_basic_token (expected : Token) (tokens : List Token) :
    Option (List Token) :=
  match tokens with
  | tok :: rest => if tok = expected then some rest else none
  | [] => none

/-- The token-and-payload core of `parse_number` (the Rust function wraps
the number in `AstNode::Number`; callers that need the raw number match it
back out, with an unreachable panic otherwise — here the payload is
returned directly and `parse_number` wraps it). -/
def parse_number_q (tokens : List Token) : Option (List Token × ℚ) :=
  match tokens with
  | .Number num :: rest => some (rest, num)
  | _ => none

/-- `parse_number`. -/
def parse_number (tokens : List Token) : PResult :=
  match parse_number_q tokens with
  | some (rest, num) => some (rest, .Number num)
  | none => none

/-- `parse_named_matrix`. -/
def parse_named_matrix (tokens : List Token) : PResult :=
  match tokens with
  | .NamedMatrix name :: rest => some (rest, .NamedMatrix name)
  | _ => none

/-- `parse_rotation_matrix`: `rot` `(` number `)`. -/
def parse_rotation_matrix (tokens : List Token) : PResult := do
  let tokens ← consume_basic_token .Rot tokens
  let tokens ← consume_basic_token .OpenParen tokens
  let (tokens, degrees) ← parse_number_q tokens
  let tokens ← consume_basic_token .CloseParen tokens
  some (tokens, .RotationMatrix degrees)

/-- `parse_anonymous_2d_matrix`: `[ n n ; n n ]`, columns `(ix, iy)` and
`(jx, jy)`. -/
def parse_anonymous_2d_matrix (tokens : List Token) : PResult := do
  let tokens ← consume_basic_token .OpenSquareBracket tokens
  let (tokens, ix) ← parse_number_q tokens
  let (tokens, jx) ← parse_number_q tokens
  let tokens ← consume_basic_token .Semicolon tokens
  let (tokens, iy) ← parse_number_q tokens
  let (tokens, jy) ← parse_number_q tokens
  let tokens ← consume_basic_token .CloseSquareBracket tokens
  some (tokens, .Anonymous2dMatrix ⟨⟨ix, iy⟩, ⟨jx, jy⟩⟩)

/-- `parse_anonymous_3d_matrix`: `[ n n n ; n n n ; n n n ]`. -/
def parse_anonymous_3d_matrix (tokens : List Token) : PResult := do
  let tokens ← consume_basic_token .OpenSquareBracket tokens
  let (tokens, ix) ← parse_number_q tokens
  let (tokens, jx) ← parse_number_q tokens
  let (tokens, kx) ← parse_number_q tokens
  let tokens ← consume_basic_token .Semicolon tokens
  let (tokens, iy) ← parse_number_q tokens
  let (tokens, jy) ← parse_number_q tokens
  let (tokens, ky) ← parse_number_q tokens
  let tokens ← consume_basic_token .Semicolon tokens
  let (tokens, iz) ← parse_number_q tokens
  let (tokens, jz) ← parse_number_q tokens
  let (tokens, kz) ← parse_number_q tokens
  let tokens ← consume_basic_token .CloseSquareBracket tokens
  some (tokens, .Anonymous3dMatrix ⟨⟨ix, iy, iz⟩, ⟨jx, jy, jz⟩, ⟨kx, ky, kz⟩⟩)

mutual

/-- `parse_addition` from `nom_impl.rs`: a multiplication, then — only
when a literal `+` follows — a recursive addition (note: no `-` case, and
the recursion is on the right). -/
def parse_addition : ℕ → List Token → PResult
  | 0, _ => none
  | fuel + 1, tokens =>
    match parse_multiply fuel tokens with
    | none => none
    | some (tokens1, left) =>
      match consume_basic_token .Plus tokens1 with
      | some tokens2 =>
        match parse_addition fuel tokens2 with
        | none => none
        | some (tokens3, right) => some (tokens3, .Add left right)
      | none => some (tokens1, left)

/-- `parse_multiply`: a division, then optionally `*` and a recursive
multiplication (no implicit-multiplication case). -/
def parse_multiply : ℕ → List Token → PResult
  | 0, _ => none
  | fuel + 1, tokens =>
    match parse_divide fuel tokens with
    | none => none
    | some (tokens1, left) =>
      match consume_basic_token .Star tokens1 with
      | some tokens2 =>
        match parse_multiply fuel tokens2 with
        | none => none
        | some (tokens3, right) => some (tokens3, .Multiply left right)
      | none => some (tokens1, left)

/-- `parse_divide`: an exponentiation, then optionally `/` and a recursive
division. -/
def parse_divide : ℕ → List Token → PResult
  | 0, _ => none
  | fuel + 1, tokens =>
    match parse_exponent fuel tokens with
    | none => none
    | some (tokens1, left) =>
      match consume_basic_token .Slash tokens1 with
      | some tokens2 =>
        match parse_divide fuel tokens2 with
        | none => none
        | some (tokens3, right) => some (tokens3, .Divide left right)
      | none => some (tokens1, left)

/-- `parse_exponent`: a term, then optionally `^` followed by either a
braced recursive exponentiation or a bare recursive exponentiation. -/
def parse_exponent : ℕ → List Token → PResult
  | 0, _ => none
  | fuel + 1, tokens =>
    match parse_term fuel tokens with
    | none => none
    | some (tokens1, base) =>
      match consume_basic_token .Caret tokens1 with
      | none => some (tokens1, base)
      | some tokens2 =>
        match consume_basic_token .OpenBrace tokens2 with
        | some tokens3 =>
          match parse_exponent fuel tokens3 with
          | none => none
          | some (tokens4, power) =>
            match consume_basic_token .CloseBrace tokens4 with
            | none => none
            | some tokens5 => some (tokens5, .Exponent base power)
        | none =>
          match parse_exponent fuel tokens2 with
          | none => none
          | some (tokens4, power) => some (tokens4, .Exponent base power)

/-- `parse_term`: the `alt` over negation, named matrix, rotation, number,
anonymous 2D matrix, anonymous 3D matrix, and a parenthesised
expression — in source order. -/
def parse_term : ℕ → List Token → PResult
  | 0, _ => none
  | fuel + 1, tokens =>
    (match consume_basic_token .Minus tokens with
     | some tokens1 =>
       match parse_term fuel tokens1 with
       | some (tokens2, term) => some (tokens2, .Negate term)
       | none => none
     | none => none) <|>
    parse_named_matrix tokens <|>
    parse_rotation_matrix tokens <|>
    parse_number tokens <|>
    parse_anonymous_2d_matrix tokens <|>
    parse_anonymous_3d_matrix tokens <|>
    (match consume_basic_token .OpenParen tokens with
     | some tokens1 =>
       match parse_addition fuel tokens1 with
       | some (tokens2, expression) =>
         match consume_basic_token .CloseParen tokens2 with
         | some tokens3 => some (tokens3, expression)
         | none => none
       | none => none
     | none => none)

end

/-- `parse_expression` is `parse_addition` in the source. -/
def parse_expression (fuel : ℕ) (tokens : List Token) : PResult :=
  parse_addition fuel tokens

/-- `ParseError` from `src/matrix/expression/parser/mod.rs` (the nom error
payload is never inspected and is dropped, as in `TokeniseError`). -/
inductive ParseError where
  | NomError
  | UnconsumedInput (tokens : List Token)
deriving DecidableEq

/-- `parse_tokens_into_ast`: run the expression parser and require the
whole token list to be consumed.  Each parser consumes fuel only going
down a precedence level or consuming a token, so `8 * length + 8` fuel can
never be the reason a parse fails. -/
def parse_tokens_into_ast (tokens : List Token) : Except ParseError AstNode :=
  match parse_expression (8 * tokens.length + 8) tokens with
  | none => .error .NomError
  | some (token_list, ast) =>
    if token_list.isEmpty then .ok ast else .error (.UnconsumedInput token_list)

/-- `TokeniseOrParseError` from `src/matrix/expression/mod.rs`. -/
inductive TokeniseOrParseError where
  | TokeniseError (e : TokeniseError)
  | ParseError (e : ParseError)
deriving DecidableEq

/-- `parse_expression_from_string`: tokenise then parse. -/
def parse_expression_from_string (expression : String) :
    Except TokeniseOrParseError AstNode :=
  match tokenise_expression expression with
  | .error e => .error (.TokeniseError e)
  | .ok tokens =>
    match parse_tokens_into_ast tokens with
    | .error e => .error (.ParseError e)
    | .ok ast => .ok ast

/-- The `get` function of a freshly created matrix map: every name is
undefined. -/
def emptyEnv : String → Except MatrixMapError Matrix2dOr3d :=
  fun name => .error (.NameNotDefined name)

/-- Parse a string and evaluate the resulting AST in the empty
environment; `none` when parsing fails. -/
def evaluateString (s : String) : Option (Except EvaluationError NumberOrMatrix) :=
  match parse_expression_from_string s with
  | .ok ast => some (ast.evaluate emptyEnv)
  | .error _ => none

/-- The exact value of the `f32` nearest to 3.2: `13421773 · 2^-22`
(already in lowest terms, so the `Rat` constructor applies directly). -/
def threePointTwoF32 : ℚ := ⟨13421773, 4194304, by decide, by decide⟩

/-- `threePointTwoF32 * 5 = 67108865 · 2^-22 = 16.0000002384185791015625`,
the exact value the pipeline computes for `"3.2 * 5"`. -/
def sixteenPlusF32 : ℚ := ⟨67108865, 4194304, by decide, by decide⟩

/-- The predicate "every key stored in this association list is a valid
matrix name". -/
def keysValid {T : Type} (l : List (String × T)) : Prop :=
  ∀ kv ∈ l, MatrixName.is_valid kv.1 = true

theorem hashInsert_mem {T : Type} {l : List (String × T)} {key : String} {v : T}
    {kv : String × T} (h : kv ∈ hashInsert l key v) : kv.1 = key ∨ kv ∈ l := by
  induction l with
  | nil =>
    simp only [hashInsert, List.mem_singleton] at h
    exact Or.inl (by rw [h])
  | cons hd tl ih =>
    obtain ⟨k, w⟩ := hd
    rw [hashInsert] at h
    by_cases hk : k = key
    · rw [if_pos hk] at h
      rcases List.mem_cons.mp h with h1 | h1
      · exact Or.inl (by rw [h1])
      · exact Or.inr (List.mem_cons_of_mem _ h1)
    · rw [if_neg hk] at h
      rcases List.mem_cons.mp h with h1 | h1
      · exact Or.inr (by rw [h1]; exact List.mem_cons_self _ _)
      · rcases ih h1 with h2 | h2
        · exact Or.inl h2
        · exact Or.inr (List.mem_cons_of_mem _ h2)

theorem set_keysValid {T : Type} (m : MatrixMapHashMap T) (name : String) (value : T)
    (h : keysValid m.map) : keysValid ((m.set name value).2).map := by
  rw [MatrixMapHashMap.set]
  by_cases hv : MatrixName.is_valid name
  · rw [if_pos hv]
    intro kv hkv
    rcases hashInsert_mem hkv with h1 | h1
    · rw [h1]; exact hv
    · exact h kv h1
  · rw [if_neg hv]
    exact h

theorem applySets_keysValid {T : Type} (ops : List (String × T)) :
    ∀ m : MatrixMapHashMap T, keysValid m.map →
      keysValid (ops.foldl (fun acc op => (acc.set op.1 op.2).2) m).map := by
  induction ops with
  | nil => intro m h; exact h
  | cons op rest ih =>
    intro m h
    exact ih _ (set_keysValid m op.1 op.2 h)

theorem hashLookup_mem {T : Type} {l : List (String × T)} {key : String} {v : T}
    (h : hashLookup l key = some v) : (key, v) ∈ l := by
  induction l with
  | nil => simp [hashLookup] at h
  | cons hd tl ih =>
    obtain ⟨k, w⟩ := hd
    rw [hashLookup] at h
    by_cases hk : k = key
    · rw [if_pos hk] at h
      injection h with h
      rw [← hk, ← h]
      exact List.mem_cons_self _ _
    · rw [if_neg hk] at h
      exact List.mem_cons_of_mem _ (ih h)

theorem integer_power_guard (p i : ℕ) : ((1 <<< i) &&& p ≠ 0) ↔ p.testBit i = true := by
  rw [Nat.one_shiftLeft, Nat.two_pow_and]
  cases h : p.testBit i <;> simp [h]

theorem integer_power_loop {M : Type} [Monoid M] [PowerZero M] (b : M) (p : ℕ) :
    ∀ n : ℕ,
      (List.range n).reverse.foldl
        (fun num bit_idx =>
          let squared := num * num
          if (1 <<< bit_idx) &&& p ≠ 0 then squared * b else squared)
        (b ^ (p / 2 ^ n)) = b ^ p := by
  intro n
  induction n with
  | zero => simp
  | succ n ih =>
    rw [List.range_succ, List.reverse_append, List.reverse_singleton,
      List.singleton_append, List.foldl_cons]
    have hdiv : p / 2 ^ (n + 1) = p / 2 ^ n / 2 := by
      rw [pow_succ, Nat.div_div_eq_div_mul]
    have hstep :
        (let squared := b ^ (p / 2 ^ (n + 1)) * b ^ (p / 2 ^ (n + 1))
         if (1 <<< n) &&& p ≠ 0 then squared * b else squared) = b ^ (p / 2 ^ n) := by
      have hbit : ((1 <<< n) &&& p ≠ 0) ↔ p / 2 ^ n % 2 = 1 := by
        rw [integer_power_guard, Nat.testBit_to_div_mod, decide_eq_true_eq]
      by_cases hb : p / 2 ^ n % 2 = 1
      · rw [if_pos (hbit.mpr hb), hdiv, ← pow_add, ← pow_succ]
        congr 1
        omega
      · rw [if_neg (fun hc => hb (hbit.mp hc)), hdiv, ← pow_add]
        congr 1
        omega
    rw [hstep]
    exact ih

/-- C1: the claimed pretty-print round trip fails on the code.  For the
AST `2 ^ (1 + 1)` the printer emits `"2 ^ \x7b1 + 1\x7d"`, but
`parse_expression_from_string` rejects that string: inside `^\x7b...\x7d`
the parser accepts only an exponentiation, not a full expression, so the
`+` is a parse error and the round trip cannot evaluate at all. -/
theorem pretty_print_round_trip_fails :
    AstNode.to_expression_string (.Exponent (.Number 2) (.Add (.Number 1) (.Number 1))) =
      "2 ^ \x7b1 + 1\x7d" ∧
    parse_expression_from_string "2 ^ \x7b1 + 1\x7d" =
      .error (.ParseError .NomError) := by
  constructor
  · with_unfolding_all decide
  · with_unfolding_all decide

/-- C2: evaluating `Exponent` whose power is literally `NamedMatrix "T"`
transposes the evaluated base without ever consulting the environment for
`T` (the statement holds for every environment `map`): a number base gives
`CannotTransposeNumber`, a matrix base gives its transpose, and an error
from the base propagates. -/
theorem evaluate_transpose_shortcut (base : AstNode)
    (map : String → Except MatrixMapError Matrix2dOr3d) :
    AstNode.evaluate (.Exponent base (.NamedMatrix "T")) map =
      match AstNode.evaluate base map with
      | .ok (.Number _) => .error .CannotTransposeNumber
      | .ok (.Matrix m) => .ok (.Matrix m.transpose)
      | .error e => .error e := by
  rw [AstNode.evaluate]
  rw [if_pos rfl]
  cases h : AstNode.evaluate base map with
  | error e => rfl
  | ok v =>
    cases v with
    | Number n => rfl
    | Matrix m => cases m <;> rfl

/-- C3: raising a matrix to a number returns
`CannotRaiseMatrixToNonInteger` unless the power is within the `1e-9`
tolerance of its rounding; otherwise the matrix is raised to
`|round(p)|` as a saturating `u16` by square-and-multiply, and a negative
rounded power additionally inverts the result, failing with
`CannotInvertSingularMatrix` when the determinant is within the tolerance
of zero. -/
theorem try_power_matrix_number (m : Matrix2dOr3d) (p : ℚ) :
    NumberOrMatrix.try_power (.Matrix m) (.Number p) =
      if relativeEq (rustRound p : ℚ) p EPSILON defaultMaxRelative then
        let result := m.integer_pow (f64AsU16 |(rustRound p : ℚ)|)
        if (rustRound p : ℚ) < 0 then
          if relativeEq result.determinant 0 EPSILON defaultMaxRelative then
            .error .CannotInvertSingularMatrix
          else .ok (.Matrix result.inverse)
        else .ok (.Matrix result)
      else .error .CannotRaiseMatrixToNonInteger := by
  cases m with
  | TwoD b =>
    rw [NumberOrMatrix.try_power]
    by_cases h1 : relativeEq (rustRound p : ℚ) p EPSILON defaultMaxRelative
    · rw [if_pos h1, if_pos h1]
      by_cases h2 : (rustRound p : ℚ) < 0
      · cases h3 : relativeEq (integer_power b (f64AsU16 |(rustRound p : ℚ)|)).determinant
            0 EPSILON defaultMaxRelative <;>
          simp [h2, h3, Matrix2dOr3d.integer_pow, Matrix2dOr3d.determinant,
            Matrix2dOr3d.inverse]
      · simp [h2, Matrix2dOr3d.integer_pow]
    · rw [if_neg h1, if_neg h1]
  | ThreeD b =>
    rw [NumberOrMatrix.try_power]
    have heps : (1 / 1000000000 : ℚ) = EPSILON := rfl
    rw [heps]
    by_cases h1 : relativeEq (rustRound p : ℚ) p EPSILON defaultMaxRelative
    · rw [if_pos h1, if_pos h1]
      by_cases h2 : (rustRound p : ℚ) < 0
      · cases h3 : relativeEq (integer_power b (f64AsU16 |(rustRound p : ℚ)|)).determinant
            0 EPSILON defaultMaxRelative <;>
          simp [h2, h3, Matrix2dOr3d.integer_pow, Matrix2dOr3d.determinant,
            Matrix2dOr3d.inverse]
      · simp [h2, Matrix2dOr3d.integer_pow]
    · rw [if_neg h1, if_neg h1]

/-- C4: `integer_power` computes the `k`-fold product for any type whose
multiplication is associative with the trait's `POWER_ZERO` constant as
identity, i.e. any monoid whose `1` is `POWER_ZERO`; in particular
`integer_power b 0 = POWER_ZERO = 1`. -/
theorem integer_power_correct {M : Type} [Monoid M] [PowerZero M]
    (h : (PowerZero.POWER_ZERO : M) = 1) (b : M) (k : ℕ) :
    integer_power b k = b ^ k := by
  rw [integer_power]
  by_cases hk : k = 0
  · rw [if_pos hk, hk, pow_zero, h]
  · rw [if_neg hk]
    have h1 : k / 2 ^ Nat.log2 k = 1 := by
      apply Nat.div_eq_of_lt_le
      · simpa using Nat.log2_self_le hk
      · have h2 : k < 2 ^ (Nat.log2 k + 1) := Nat.lt_log2_self
        calc k < 2 ^ (Nat.log2 k + 1) := h2
        _ = 2 * 2 ^ Nat.log2 k := by ring
    have hl := integer_power_loop b k (Nat.log2 k)
    rw [h1, pow_one] at hl
    exact hl

/-- Witness for C4 at `M = ℚ`, `b = 3`, `k = 5`. -/
theorem integer_power_correct_witness :
    (PowerZero.POWER_ZERO : ℚ) = 1 ∧ integer_power (3 : ℚ) 5 = 3 ^ 5 :=
  ⟨rfl, integer_power_correct rfl 3 5⟩

/-- C5: subtraction is not parsed at all by the checked-in parser — the
addition rule consumes only `+` — so `"2 - 1"` does not parse to
`Add(2, Negate(1))`; the parse stops after `2` and reports the `- 1`
tokens as unconsumed input.  (The grammar comment in `parser/mod.rs` and
the tests in `expression/mod.rs` both promise the lowering the claim
describes.) -/
theorem parse_subtraction_lowering_missing :
    parse_expression_from_string "2 - 1" =
      .error (.ParseError (.UnconsumedInput [.Minus, .Number 1])) := by
  with_unfolding_all decide

/-- C6: implicit multiplication is absent from the checked-in code in
both halves: the tokeniser's leading-name regex `[A-Z][A-Za-z0-9_]*`
accepts uppercase in the tail, so `"ABC"` lexes as the single name
`ABC` (parsing to one `NamedMatrix`, not a product), and the multiply
rule consumes only literal `*`, so `"2M"` leaves the name unconsumed.
Only the `"Abc"` half of the claim holds. -/
theorem parse_implicit_multiplication_missing :
    parse_expression_from_string "ABC" = .ok (.NamedMatrix "ABC") ∧
    parse_expression_from_string "2M" =
      .error (.ParseError (.UnconsumedInput [.NamedMatrix "M"])) ∧
    parse_expression_from_string "Abc" = .ok (.NamedMatrix "Abc") := by
  refine ⟨?_, ?_, ?_⟩ <;> with_unfolding_all decide

/-- C7 counterexample: same-precedence chains do not parse
left-associated.  At `a, b, c = 1, 2, 3` the parsed trees differ from the
claimed `Add(Add(a,b),c)` and `Divide(Divide(a,b),c)`. -/
theorem parse_chain_left_assoc_false :
    parse_tokens_into_ast [.Number 1, .Plus, .Number 2, .Plus, .Number 3] ≠
      .ok (.Add (.Add (.Number 1) (.Number 2)) (.Number 3)) ∧
    parse_tokens_into_ast [.Number 1, .Slash, .Number 2, .Slash, .Number 3] ≠
      .ok (.Divide (.Divide (.Number 1) (.Number 2)) (.Number 3)) := by
  refine ⟨?_, ?_⟩ <;> with_unfolding_all decide

/-- C7 amended: the right-recursive rules nest same-precedence chains to
the right: `a + b + c` parses to `Add(a, Add(b, c))` and `a / b / c` to
`Divide(a, Divide(b, c))`. -/
theorem parse_chain_nests_right (x y z : ℚ) :
    parse_tokens_into_ast [.Number x, .Plus, .Number y, .Plus, .Number z] =
      .ok (.Add (.Number x) (.Add (.Number y) (.Number z))) ∧
    parse_tokens_into_ast [.Number x, .Slash, .Number y, .Slash, .Number z] =
      .ok (.Divide (.Number x) (.Divide (.Number y) (.Number z))) :=
  ⟨rfl, rfl⟩

/-- C8: a braced exponent does not accept a full expression — the parser
recurses into `parse_exponent` inside the braces, so the addition in
`"M ^ \x7b1 + 2\x7d"` makes the whole parse fail instead of producing the
power `Add(1, 2)` the claim (and the printed form of such ASTs)
requires. -/
theorem parse_braced_exponent_rejects_sum :
    parse_expression_from_string "M ^ \x7b1 + 2\x7d" =
      .error (.ParseError .NomError) := by
  with_unfolding_all decide

/-- C9 counterexample: evaluating the parsed string `"3.2 * 5"` does not
return exactly `Number(16.0)`, because the tokeniser parses numeric
literals at `f32` precision: `3.2` lexes as `13421773/4194304`. -/
theorem evaluate_string_three_point_two_times_five_not_sixteen :
    evaluateString "3.2 * 5" ≠ some (.ok (.Number 16)) := by
  with_unfolding_all decide

/-- C9 amended: evaluating the parsed string `"3.2 * 5"` returns exactly
`Number((3.2 : f32) * 5) = Number(67108865/4194304)`, which is within
`1e-6` of 16 but not equal to it. -/
theorem evaluate_string_three_point_two_times_five :
    evaluateString "3.2 * 5" = some (.ok (.Number sixteenPlusF32)) ∧
    relativeEq sixteenPlusF32 16 (1 / 1000000) defaultMaxRelative = true ∧
    sixteenPlusF32 ≠ 16 := by
  refine ⟨by with_unfolding_all rfl, by with_unfolding_all decide,
    by with_unfolding_all decide⟩

/-- C10: every map reachable from `new()` by a sequence of `set` calls
stores only keys accepted by `MatrixName::is_valid` (`set` validates
before inserting), and `get` on a stored key returns the stored matrix —
in particular it never returns `InvalidName` for a stored key. -/
theorem matrixMap_keys_valid {T : Type} (ops : List (String × T)) (name : String) :
    (∀ v : T, (name, v) ∈ (applySets ops).map → MatrixName.is_valid name = true) ∧
    (∀ v : T, hashLookup (applySets ops).map name = some v →
      (applySets ops).get name = .ok v) := by
  have hkv : keysValid (applySets ops).map := by
    apply applySets_keysValid
    intro kv h
    simp [MatrixMapHashMap.new] at h
  constructor
  · intro v hv
    exact hkv (name, v) hv
  · intro v hv
    have hvalid : MatrixName.is_valid name = true := hkv (name, v) (hashLookup_mem hv)
    rw [MatrixMapHashMap.get, if_pos hvalid, hv]

/-- Witness for C10 on the single-set sequence `[("M", 1)]`. -/
theorem matrixMap_keys_valid_witness :
    (applySets [("M", (1 : ℚ))]).get "M" = Except.ok 1 :=
  (matrixMap_keys_valid [("M", (1 : ℚ))] "M").2 1 (by with_unfolding_all decide)

end Trinity
